import Mathlib

/-!
Verification of the PV-Meter protocol engine and MPPT controller
(`atorch_interactive.py`) against its natural-language specification.

The Python source is embedded shallowly: bytes are natural numbers,
Python floats produced by exact decimal scaling are rationals, the
stateful notification handler is explicit state passing, and the
event-driven MPPT sweep is a deterministic function of a scripted
sequence of wait-for-fresh-frame outcomes.
-/

namespace PVMeter

/-- Bytes are natural numbers; every byte the modelled code builds is below 256. -/
abbrev Byte := ℕ

/-- Big-endian integer value of the Python slice `data[o:o+k]`, as computed by
`int.from_bytes(data[o:o+k], 'big')`.  A slice reaching past the end of the
list simply yields the available bytes, exactly as Python slicing does. -/
def beSlice (data : List Byte) (o k : ℕ) : ℕ :=
  ((data.drop o).take k).foldl (fun acc b => acc * 256 + b) 0

/-- The dictionary returned by `parse_packet` (atorch_interactive.py, lines 129-136). -/
structure Measurement where
  spannung_V : ℚ
  strom_A : ℚ
  kapazitaet_Ah : ℚ
  energie_Wh : ℚ
  temperatur_C : ℕ
  laufzeit_h : ℕ
  laufzeit_min : Byte
  laufzeit_sec : Byte
deriving DecidableEq, Repr

/-- Model of `parse_packet` (atorch_interactive.py, lines 122-138): rejects inputs shorter
than 36 bytes or whose first two bytes differ from `FF 55`, otherwise decodes
the big-endian fields at the fixed offsets with their exact decimal scales. -/
def parse_packet (data : List Byte) : Option Measurement :=
  if data.length < 36 ∨ data.take 2 ≠ [0xff, 0x55] then none
  else some
    { spannung_V := (beSlice data 4 3 : ℚ) / 10
      strom_A := (beSlice data 7 3 : ℚ) / 1000
      kapazitaet_Ah := (beSlice data 10 3 : ℚ) / 100
      energie_Wh := (beSlice data 13 4 : ℚ) * 1.0
      temperatur_C := beSlice data 24 2
      laufzeit_h := beSlice data 26 2
      laufzeit_min := data.getD 28 0
      laufzeit_sec := data.getD 29 0 }

/-- The scan loop inside `handle_notify` (atorch_interactive.py, lines 453-460),
written with an explicit fuel so that it is structurally recursive: every loop
iteration removes at least one byte from the buffer, so any fuel of at least
`b.length` runs the loop to completion (`scanLoop_congr` below).  While at
least 36 bytes are buffered, either drop one leading byte (no magic) or slice
one 36-byte frame; frames of type `0x01` that decode are emitted. -/
def scanLoop (fuel : ℕ) (b : List Byte) : List Measurement × List Byte :=
  match fuel with
  | 0 => ([], b)
  | f + 1 =>
    if 36 ≤ b.length then
      if b.take 2 = [0xff, 0x55] then
        if (b.take 36).getD 2 0 ≠ 0x01 then scanLoop f (b.drop 36)
        else
          match parse_packet (b.take 36) with
          | some m => (m :: (scanLoop f (b.drop 36)).1, (scanLoop f (b.drop 36)).2)
          | none => scanLoop f (b.drop 36)
      else scanLoop f b.tail
    else ([], b)

/-- The scan loop of `handle_notify`, run to completion on a buffer: returns
the emitted measurements in order together with the retained buffer. -/
def scanBuffer (b : List Byte) : List Measurement × List Byte :=
  scanLoop b.length b

/-- The module-level mutable state touched by `handle_notify`: the reassembly
buffer and the counter of unrecognized ("misc") inbound messages. -/
structure NotifyState where
  buffer : List Byte
  misc : ℕ
deriving DecidableEq, Repr

/-- Model of `handle_notify` (atorch_interactive.py, lines 445-462) as a state transformer:
empty chunks are ignored; an 8-byte `FF 55 02 …` reply is suppressed; a chunk of
length ≥ 2 starting with the magic is appended to the buffer and the scan loop
runs; any other chunk only increments the misc counter.  Returns the new state
and the measurements emitted during this call. -/
def handle_notify (s : NotifyState) (data : List Byte) : NotifyState × List Measurement :=
  if data = [] then (s, [])
  else if data.length = 8 ∧ data.take 2 = [0xff, 0x55] ∧ data.getD 2 0 = 0x02 then (s, [])
  else if 2 ≤ data.length ∧ data.take 2 = [0xff, 0x55] then
    let r := scanBuffer (s.buffer ++ data)
    (⟨r.2, s.misc⟩, r.1)
  else (⟨s.buffer, s.misc + 1⟩, [])

/-- Feeding a list of chunks to `handle_notify` in order, collecting all
emitted measurements. -/
def feedChunks (s : NotifyState) : List (List Byte) → NotifyState × List Measurement
  | [] => (s, [])
  | c :: cs =>
    let r1 := handle_notify s c
    let r2 := feedChunks r1.1 cs
    (r2.1, r1.2 ++ r2.2)

/-- Model of `build_atorch_cmd` (atorch_interactive.py, lines 161-167): the XOR-dialect
command builder.  `bytearray([...])` raises `ValueError` for a byte outside
0–255, modelled by `none`. -/
def build_atorch_cmd (cmd : ℕ) (adu : ℕ) : Option (List Byte) :=
  if cmd < 256 ∧ adu < 256 then
    let pkt : List Byte := [0xff, 0x55, 0x11, adu, cmd, 0, 0, 0, 0]
    some (pkt ++ [(pkt.drop 2).foldl (fun a b => a ^^^ b) 0x44])
  else none

/-- Model of `_make_button_packet` (atorch_interactive.py, lines 176-181): the sum-dialect
command builder; `& 0xFF` on a Python int is `% 256` (also for negatives). -/
def make_button_packet (button_code adu : ℤ) : List Byte :=
  let pkt9 : List Byte :=
    [0xff, 0x55, 0x11, (adu % 256).toNat, (button_code % 256).toNat, 0, 0, 0, 0]
  pkt9 ++ [((pkt9.drop 2).foldl (fun a b => a + b) 0 ^^^ 68) % 256]

/-- Independent recomputation of the XOR dialect over bytes 2–8 of a frame:
`0x44` XORed successively with bytes 2 through 8. -/
def xor_dialect_checksum (pkt : List Byte) : Byte :=
  ((pkt.drop 2).take 7).foldl (fun a b => a ^^^ b) 0x44

/-- Independent recomputation of the sum dialect over bytes 2–8 of a frame:
`(sum of bytes 2–8) XOR 0x44`, masked to 8 bits. -/
def sum_dialect_checksum (pkt : List Byte) : Byte :=
  (((pkt.drop 2).take 7).foldl (fun a b => a + b) 0 ^^^ 0x44) % 256

/-- What one `learn_adu` probe of a candidate index observes (atorch_interactive.py,
lines 206-211): the frame-counter delta `f1 - f0`, the misc-counter delta
`m1 - m0` (both counters only ever increase, so the deltas are naturals), and
whether the absolute current change reached the `0.0005` threshold. -/
structure ProbeResult where
  df : ℕ
  dm : ℕ
  bigDelta : Bool
deriving DecidableEq, Repr

/-- The score `(f1-f0)+(m1-m0)+(1 if di>=0.0005 else 0)` computed by `learn_adu`
(atorch_interactive.py, line 211), as an integer because it is compared against
the initial best score `-1`. -/
def probe_score (r : ProbeResult) : ℤ :=
  (r.df : ℤ) + r.dm + (if r.bigDelta then 1 else 0)

/-- One iteration of the candidate loop in `learn_adu` (atorch_interactive.py,
line 215): the best candidate is replaced only on a strictly greater score. -/
def adu_step (obs : Fin 4 → ProbeResult) (best : Option (Fin 4) × ℤ) (adu : Fin 4) :
    Option (Fin 4) × ℤ :=
  if probe_score (obs adu) > best.2 then (some adu, probe_score (obs adu)) else best

/-- Model of `learn_adu` (atorch_interactive.py, lines 201-221) given the scripted probe
observations for the four candidates: starting from `best_adu = None`,
`best_score = -1`, the candidates are visited in the order 0,1,2,3 with
`adu_step`; if the final best score is ≤ 0 the detected index is `None`
(broadcast fallback), otherwise the best index. -/
def learn_adu (obs : Fin 4 → ProbeResult) : Option (Fin 4) :=
  let r := ([0, 1, 2, 3] : List (Fin 4)).foldl (adu_step obs) (none, -1)
  if r.2 ≤ 0 then none else r.1

/-- The maximum probe score over the four candidates. -/
def max_probe_score (obs : Fin 4 → ProbeResult) : ℤ :=
  max (max (probe_score (obs 0)) (probe_score (obs 1)))
    (max (probe_score (obs 2)) (probe_score (obs 3)))

/-- The selection rule in the spec's words, for comparison with `learn_adu`:
unresolved when no candidate scores positively, otherwise the lowest-valued
index among those achieving the maximum score (first-seen-wins tie-break over
the probing order 0,1,2,3). -/
def spec_selected_index (obs : Fin 4 → ProbeResult) : Option (Fin 4) :=
  if max_probe_score obs ≤ 0 then none
  else if probe_score (obs 0) = max_probe_score obs then some 0
  else if probe_score (obs 1) = max_probe_score obs then some 1
  else if probe_score (obs 2) = max_probe_score obs then some 2
  else some 3

/-! ### MPPT sweep simulation

`mppt_sweep` suspends only inside `wait_for_new_frame`; everything between two
waits is deterministic.  The environment is therefore a script: a list of
outcomes, one consumed per `wait_for_new_frame` call, an exhausted script
meaning no further fresh frame ever arrives (timeout).  A fresh frame carries
the voltage and current the decode path would have stored in the module
globals read by `_current_power`. -/

/-- Outcome of one `wait_for_new_frame` call. -/
inductive WaitResult where
  | timeout
  | fresh (u i : ℚ)
deriving DecidableEq, Repr

/-- The script of wait outcomes together with the latest telemetry values
(`last_voltage_v`, `last_current_a`), which persist across timeouts and are
overwritten by every fresh frame. -/
structure SimCtx where
  env : List WaitResult
  last : Option (ℚ × ℚ)
deriving DecidableEq, Repr

/-- Consume the next scripted wait outcome, updating the latest telemetry. -/
def popWait (c : SimCtx) : WaitResult × SimCtx :=
  match c.env with
  | [] => (.timeout, c)
  | r :: rest =>
    match r with
    | .fresh u i => (r, ⟨rest, some (u, i)⟩)
    | .timeout => (r, ⟨rest, c.last⟩)

/-- Model of `_current_power` (atorch_interactive.py, lines 240-243). -/
def current_power (c : SimCtx) : Option ℚ :=
  match c.last with
  | none => none
  | some (u, i) => some (u * i)

/-- The local variables of `mppt_sweep`. -/
structure MpptState where
  bestP : ℚ
  bestU : ℚ
  bestI : ℚ
  bestPos : ℤ
  downs : ℕ
  totalSteps : ℕ
  pos : ℤ
  noImprove : ℕ
deriving DecidableEq, Repr

/-- Externally visible actions of one `mppt_sweep` run, in order: button
presses, the coarse-timeout warning, the unconditional entry into the fine
phase (the `MPPT (fine)` banner), the fine no-improvement stop, and the final
result report. -/
inductive MpptAct where
  | abortNoAdu
  | abortNoMeasurement
  | sendPlus
  | sendMinus
  | warnNoFrameCoarse
  | enterFine
  | fineStopNoImprove
  | report (u i p : ℚ)
deriving DecidableEq, Repr

/-- Tunables of `mppt_sweep` (atorch_interactive.py, lines 39-47). -/
def BURST_PER_FRAME : ℕ := 3

def MPPT_MAX_STEPS : ℕ := 500

def MPPT_CONSECUTIVE_DOWNS : ℕ := 3

def MPPT_FINE_CYCLES : ℕ := 10

def MPPT_FINE_TOL_W : ℚ := 0.05

def MPPT_FINE_NO_IMPROVE_MAX : ℕ := 4

/-- The coarse epsilon `1e-9` (atorch_interactive.py, line 324). -/
def COARSE_EPS : ℚ := 1 / 1000000000

/-- The coarse ascent loop (atorch_interactive.py, lines 304-334), written with
an explicit fuel so that it is structurally recursive: each iteration of the
`while total_steps < max_steps` loop increases `total_steps` by at least one,
so any fuel of at least `maxSteps - s.totalSteps` runs the loop to completion
(`coarseLoop_congr` below).  Returns the context, the state, the emitted
actions, and the value of `best_p` after each power evaluation (the best-power
snapshot trace). -/
def coarseLoop (fuel maxSteps consecDowns : ℕ) (c : SimCtx) (s : MpptState) :
    SimCtx × MpptState × List MpptAct × List ℚ :=
  match fuel with
  | 0 => (c, s, [], [])
  | f + 1 =>
    if s.totalSteps < maxSteps then
      let burst := min BURST_PER_FRAME (maxSteps - s.totalSteps)
      let s1 : MpptState := { s with totalSteps := s.totalSteps + burst }
      let acts := List.replicate burst MpptAct.sendPlus
      let w := popWait c
      match w.1 with
      | .timeout => (w.2, s1, acts ++ [.warnNoFrameCoarse], [])
      | .fresh _ _ =>
        match current_power w.2 with
        | none =>
          let r := coarseLoop f maxSteps consecDowns w.2 s1
          (r.1, r.2.1, acts ++ r.2.2.1, r.2.2.2)
        | some p =>
          if p > s1.bestP + COARSE_EPS then
            let s2 : MpptState :=
              { s1 with bestP := p, bestU := (w.2.last.map Prod.fst).getD 0,
                        bestI := (w.2.last.map Prod.snd).getD 0,
                        bestPos := (s1.totalSteps : ℤ), downs := 0 }
            let r := coarseLoop f maxSteps consecDowns w.2 s2
            (r.1, r.2.1, acts ++ r.2.2.1, s2.bestP :: r.2.2.2)
          else
            let s2 : MpptState := { s1 with downs := s1.downs + 1 }
            if s2.downs ≥ consecDowns then (w.2, s2, acts, [s2.bestP])
            else
              let r := coarseLoop f maxSteps consecDowns w.2 s2
              (r.1, r.2.1, acts ++ r.2.2.1, s2.bestP :: r.2.2.2)
    else (c, s, [], [])

/-- Result of one fine-dither attempt in one direction. -/
structure AttemptOut where
  ctx : SimCtx
  st : MpptState
  improved : Bool
  acts : List MpptAct
  snaps : List ℚ
  broke : Bool
deriving DecidableEq, Repr

/-- One fine-dither attempt in direction `d` (`+1` or `-1`)
(atorch_interactive.py, lines 346-364 for `+1`, lines 366-384 for `-1`):
press the button, wait for a fresh frame (timeout breaks the fine loop),
evaluate power, accept only when strictly above `best + MPPT_FINE_TOL_W`,
otherwise revert with the opposite button and one ignored wait. -/
def fineAttempt (d : ℤ) (c : SimCtx) (s : MpptState) : AttemptOut :=
  let act : MpptAct := if d > 0 then .sendPlus else .sendMinus
  let undoAct : MpptAct := if d > 0 then .sendMinus else .sendPlus
  let s1 : MpptState := { s with pos := s.pos + d }
  let w := popWait c
  match w.1 with
  | .timeout => ⟨w.2, s1, false, [act], [], true⟩
  | .fresh _ _ =>
    match current_power w.2 with
    | some p =>
      if p > s1.bestP + MPPT_FINE_TOL_W then
        let s2 : MpptState :=
          { s1 with bestP := p, bestU := (w.2.last.map Prod.fst).getD 0,
                    bestI := (w.2.last.map Prod.snd).getD 0, bestPos := s1.pos }
        ⟨w.2, s2, true, [act], [s2.bestP], false⟩
      else
        let s2 : MpptState := { s1 with pos := s1.pos - d }
        ⟨(popWait w.2).2, s2, false, [act, undoAct], [s1.bestP], false⟩
    | none =>
      let s2 : MpptState := { s1 with pos := s1.pos - d }
      ⟨(popWait w.2).2, s2, false, [act, undoAct], [], false⟩

/-- The fine-dither loop (atorch_interactive.py, lines 341-392): up to `cycles`
cycles of a `+1` attempt then a `-1` attempt; a wait timeout breaks the loop,
and `MPPT_FINE_NO_IMPROVE_MAX` consecutive cycles without improvement stop it. -/
def fineLoop (cycles : ℕ) (c : SimCtx) (s : MpptState) :
    SimCtx × MpptState × List MpptAct × List ℚ :=
  match cycles with
  | 0 => (c, s, [], [])
  | n + 1 =>
    let a1 := fineAttempt 1 c s
    if a1.broke then (a1.ctx, a1.st, a1.acts, a1.snaps)
    else
      let a2 := fineAttempt (-1) a1.ctx a1.st
      if a2.broke then (a2.ctx, a2.st, a1.acts ++ a2.acts, a1.snaps ++ a2.snaps)
      else if a1.improved || a2.improved then
        let s3 : MpptState := { a2.st with noImprove := 0 }
        let r := fineLoop n a2.ctx s3
        (r.1, r.2.1, a1.acts ++ (a2.acts ++ r.2.2.1), a1.snaps ++ (a2.snaps ++ r.2.2.2))
      else
        let s3 : MpptState := { a2.st with noImprove := a2.st.noImprove + 1 }
        if s3.noImprove ≥ MPPT_FINE_NO_IMPROVE_MAX then
          (a2.ctx, s3, a1.acts ++ (a2.acts ++ [.fineStopNoImprove]), a1.snaps ++ a2.snaps)
        else
          let r := fineLoop n a2.ctx s3
          (r.1, r.2.1, a1.acts ++ (a2.acts ++ r.2.2.1), a1.snaps ++ (a2.snaps ++ r.2.2.2))

/-- The `MPPT_RETURN_TO_BEST` tunable (atorch_interactive.py, line 47). -/
def MPPT_RETURN_TO_BEST : Bool := true

/-- Model of `mppt_sweep` (atorch_interactive.py, lines 272-412) as a function of the
ADU-known flag and the scripted telemetry: the guard on an unknown ADU, one
initial ignored wait, the coarse ascent, the unconditional entry into the fine
dither, the optional return to the best position, and the final report.
Returns the action trace, the best-power snapshot trace (starting with the
initial `base_p`), and the final local state. -/
def mppt_sweep (aduKnown : Bool) (c0 : SimCtx) :
    List MpptAct × List ℚ × Option MpptState :=
  if !aduKnown then ([.abortNoAdu], [], none)
  else
    let w0 := popWait c0
    match current_power w0.2 with
    | none => ([.abortNoMeasurement], [], none)
    | some basePower =>
      let s0 : MpptState :=
        { bestP := basePower, bestU := (w0.2.last.map Prod.fst).getD 0,
          bestI := (w0.2.last.map Prod.snd).getD 0,
          bestPos := 0, downs := 0, totalSteps := 0, pos := 0, noImprove := 0 }
      let rc := coarseLoop MPPT_MAX_STEPS MPPT_MAX_STEPS MPPT_CONSECUTIVE_DOWNS w0.2 s0
      let s1 : MpptState := { rc.2.1 with pos := rc.2.1.bestPos }
      let rf := fineLoop MPPT_FINE_CYCLES rc.1 s1
      let s2 := rf.2.1
      let retActs : List MpptAct :=
        if MPPT_RETURN_TO_BEST ∧ s2.pos ≠ s2.bestPos then
          List.replicate (s2.bestPos - s2.pos).natAbs
            (if s2.bestPos - s2.pos > 0 then .sendPlus else .sendMinus)
        else []
      (rc.2.2.1 ++ [.enterFine] ++ rf.2.2.1 ++ retActs ++
        [.report s2.bestU s2.bestI s2.bestP],
       basePower :: (rc.2.2.2 ++ rf.2.2.2), some s2)

/-! ### Concrete inputs used by counterexamples and witnesses -/

/-- A valid 36-byte status frame: magic `FF 55`, type `0x01`, all-zero payload. -/
def valid_status_frame : List Byte := [0xff, 0x55, 0x01] ++ List.replicate 33 0

/-- A 36-byte frame with correct magic but type byte `0x02` instead of `0x01`. -/
def wrong_type_frame : List Byte := [0xff, 0x55, 0x02] ++ List.replicate 33 0

/-- A valid 36-byte status frame whose bytes 4–6 hold `0x000270` and whose
bytes 7–9 hold `0x0003E8`. -/
def voltage_example_frame : List Byte :=
  [0xff, 0x55, 0x01, 0, 0x00, 0x02, 0x70, 0x00, 0x03, 0xe8] ++ List.replicate 26 0

/-- The valid status frame delivered byte-by-byte: one chunk per byte. -/
def bytewise_chunks : List (List Byte) := valid_status_frame.map (fun b => [b])

/-- A 37-byte buffer of garbage that never matches the magic. -/
def garbage_buffer : List Byte := List.replicate 37 7

/-- The valid status frame followed by one extra byte (37 bytes, magic first). -/
def framed_buffer : List Byte := valid_status_frame ++ [7]

/-- A telemetry script for `mppt_sweep`: the initial wait sees one fresh frame
with voltage 10 and current 1, and the first coarse wait then times out. -/
def coarse_timeout_script : SimCtx := ⟨[.fresh 10 1, .timeout], none⟩

/-- Probe observations in which all four candidates score 0: every candidate
ties at the maximum score. -/
def all_zero_obs : Fin 4 → ProbeResult := fun _ => ⟨0, 0, false⟩

/-- Probe observations in which candidates 0 and 1 tie at the positive maximum
score 1 while candidates 2 and 3 score 0. -/
def tie_positive_obs : Fin 4 → ProbeResult :=
  fun k => if k.val ≤ 1 then ⟨1, 0, false⟩ else ⟨0, 0, false⟩

/-! ### Helper lemmas -/

theorem scanLoop_congr : ∀ f g : ℕ, ∀ b : List Byte, b.length ≤ f → b.length ≤ g →
    scanLoop f b = scanLoop g b := by
  intro f
  induction f with
  | zero =>
    intro g b hf _hg
    have hb : b = [] := List.length_eq_zero.mp (Nat.le_zero.mp hf)
    subst hb
    cases g with
    | zero => rfl
    | succ g => simp [scanLoop]
  | succ f ih =>
    intro g b hf hg
    cases g with
    | zero =>
      have hb : b = [] := List.length_eq_zero.mp (Nat.le_zero.mp hg)
      subst hb
      simp [scanLoop]
    | succ g =>
      simp only [scanLoop]
      by_cases h36 : 36 ≤ b.length
      · rw [if_pos h36, if_pos h36]
        have hd : scanLoop f (b.drop 36) = scanLoop g (b.drop 36) :=
          ih g (b.drop 36) (by simp only [List.length_drop]; omega)
            (by simp only [List.length_drop]; omega)
        have ht : scanLoop f b.tail = scanLoop g b.tail :=
          ih g b.tail (by simp only [List.length_tail]; omega)
            (by simp only [List.length_tail]; omega)
        rw [hd, ht]
      · rw [if_neg h36, if_neg h36]

theorem scanBuffer_short (b : List Byte) (h : b.length < 36) : scanBuffer b = ([], b) := by
  unfold scanBuffer
  cases hl : b.length with
  | zero => rfl
  | succ n =>
    simp only [scanLoop]
    rw [if_neg (by omega)]

theorem scanBuffer_drop_one (b : List Byte) (h36 : 36 ≤ b.length)
    (hm : b.take 2 ≠ [0xff, 0x55]) : scanBuffer b = scanBuffer b.tail := by
  unfold scanBuffer
  obtain ⟨n, hl⟩ : ∃ n, b.length = n + 1 := ⟨b.length - 1, by omega⟩
  rw [hl]
  simp only [scanLoop]
  rw [if_pos h36, if_neg hm]
  exact scanLoop_congr n _ b.tail (by simp only [List.length_tail]; omega) (le_refl _)

theorem scanBuffer_frame (b : List Byte) (h36 : 36 ≤ b.length)
    (hm : b.take 2 = [0xff, 0x55]) :
    scanBuffer b =
      (if (b.take 36).getD 2 0 ≠ 0x01 then scanBuffer (b.drop 36)
       else
        match parse_packet (b.take 36) with
        | some m => (m :: (scanBuffer (b.drop 36)).1, (scanBuffer (b.drop 36)).2)
        | none => scanBuffer (b.drop 36)) := by
  unfold scanBuffer
  obtain ⟨n, hl⟩ : ∃ n, b.length = n + 1 := ⟨b.length - 1, by omega⟩
  rw [hl]
  simp only [scanLoop]
  rw [if_pos h36, if_pos hm]
  have hd : scanLoop n (b.drop 36) = scanLoop (b.drop 36).length (b.drop 36) :=
    scanLoop_congr n _ (b.drop 36) (by simp only [List.length_drop]; omega) (le_refl _)
  rw [hd]

theorem probe_score_nonneg (r : ProbeResult) : 0 ≤ probe_score r := by
  unfold probe_score
  have : (0 : ℤ) ≤ (if r.bigDelta then (1 : ℤ) else 0) := by split <;> omega
  omega

/-! ### Claim theorems -/

/-- Claim C9: for every byte sequence input, including empty, truncated or
corrupted inputs, `parse_packet` terminates normally with either a decoded
measurement or no value and never raises: its result is `none` exactly when
the input is shorter than 36 bytes or the 2-byte magic mismatches, and a
decoded measurement otherwise. -/
theorem parse_packet_never_raises (data : List Byte) :
    parse_packet data = none ↔ data.length < 36 ∨ data.take 2 ≠ [0xff, 0x55] := by
  unfold parse_packet
  split <;> simp_all

/-- Claim C10: for every pair of integers `button_code` and `adu`, including
values outside 0–255, `_make_button_packet` is total and deterministic and
returns a frame of exactly 10 bytes with header `FF 55 11`, byte 3 equal to
`adu` modulo 256, byte 4 equal to `button_code` modulo 256, and zero bytes at
positions 5–8. -/
theorem make_button_packet_total_shape (button_code adu : ℤ) :
    (make_button_packet button_code adu).length = 10 ∧
    (make_button_packet button_code adu).take 3 = [0xff, 0x55, 0x11] ∧
    ((make_button_packet button_code adu).getD 3 0 : ℤ) = adu % 256 ∧
    ((make_button_packet button_code adu).getD 4 0 : ℤ) = button_code % 256 ∧
    ((make_button_packet button_code adu).drop 5).take 4 = [0, 0, 0, 0] := by
  refine ⟨rfl, rfl, ?_, ?_, rfl⟩ <;>
    exact Int.toNat_of_nonneg (Int.emod_nonneg _ (by norm_num))

/-- Claim C5: for every command frame built by the encoders, the trailing
checksum byte satisfies the selected dialect's formula over bytes 2–8: for
`build_atorch_cmd` it equals `0x44` XORed successively with bytes 2–8, and for
`_make_button_packet` it equals the sum of bytes 2–8 XOR `0x44` masked to 8
bits; recomputing either formula independently over a built frame matches its
trailing byte. -/
theorem checksum_dialects_hold (cmd adu : ℕ) (hc : cmd < 256) (ha : adu < 256) :
    (∃ pkt, build_atorch_cmd cmd adu = some pkt ∧ pkt.length = 10 ∧
      pkt.getLast? = some (xor_dialect_checksum pkt)) ∧
    (∀ code sess : ℤ, (make_button_packet code sess).getLast? =
      some (sum_dialect_checksum (make_button_packet code sess))) := by
  constructor
  · unfold build_atorch_cmd
    rw [if_pos ⟨hc, ha⟩]
    exact ⟨_, rfl, rfl, rfl⟩
  · intro code sess
    rfl

/-- Witness for `checksum_dialects_hold` at the start/stop command `0x32` with
session index 2. -/
theorem checksum_dialects_hold_witness :
    (0x32 < 256 ∧ 2 < 256) ∧
    ((∃ pkt, build_atorch_cmd 0x32 2 = some pkt ∧ pkt.length = 10 ∧
        pkt.getLast? = some (xor_dialect_checksum pkt)) ∧
     (∀ code sess : ℤ, (make_button_packet code sess).getLast? =
        some (sum_dialect_checksum (make_button_packet code sess)))) :=
  ⟨⟨by norm_num, by norm_num⟩, checksum_dialects_hold 0x32 2 (by norm_num) (by norm_num)⟩

/-- Claim C2, counterexample: a 36-byte input with correct magic `FF 55` but
type byte `0x02` is decoded to a value by `parse_packet`, contradicting the
claim that the decoder yields no value when the type byte differs from
`0x01`. -/
theorem parse_packet_accepts_wrong_type :
    (parse_packet wrong_type_frame).isSome = true := rfl

/-- Claim C2, amended: `parse_packet` fails when the magic mismatches or the
length is below 36, but it does not itself check the type byte — a 36-byte
input with correct magic and type ≠ 0x01 decodes to a value; the type ≠ 0x01
rejection is performed by the scan loop of `handle_notify` before
`parse_packet` is called, so such a frame is never emitted. -/
theorem parse_packet_rejects_magic_and_length_only :
    (∀ data : List Byte, data.take 2 ≠ [0xff, 0x55] → parse_packet data = none) ∧
    (∀ data : List Byte, data.length < 36 → parse_packet data = none) ∧
    (∀ frame : List Byte, frame.length = 36 → frame.take 2 = [0xff, 0x55] →
      frame.getD 2 0 ≠ 0x01 →
      (parse_packet frame).isSome = true ∧ scanBuffer frame = ([], [])) := by
  refine ⟨?_, ?_, ?_⟩
  · intro data h
    unfold parse_packet
    rw [if_pos (Or.inr h)]
  · intro data h
    unfold parse_packet
    rw [if_pos (Or.inl h)]
  · intro frame hlen hm htype
    constructor
    · unfold parse_packet
      rw [if_neg]
      · rfl
      · push_neg
        exact ⟨by omega, hm⟩
    · rw [scanBuffer_frame frame (by omega) hm]
      have ht : frame.take 36 = frame := List.take_of_length_le (by omega)
      have hd : frame.drop 36 = [] := List.drop_eq_nil_of_le (by omega)
      rw [ht, hd, if_pos htype, scanBuffer_short [] (by simp)]

/-- Witness for `parse_packet_rejects_magic_and_length_only` at a garbage
input, a short input, and the wrong-type frame. -/
theorem parse_packet_rejects_magic_and_length_only_witness :
    parse_packet [1, 2, 3] = none ∧ parse_packet [0xff, 0x55] = none ∧
    ((parse_packet wrong_type_frame).isSome = true ∧
      scanBuffer wrong_type_frame = ([], [])) :=
  ⟨parse_packet_rejects_magic_and_length_only.1 [1, 2, 3] (by decide),
   parse_packet_rejects_magic_and_length_only.2.1 [0xff, 0x55] (by decide),
   parse_packet_rejects_magic_and_length_only.2.2 wrong_type_frame (by decide) (by decide)
     (by decide)⟩

/-- Claim C3, counterexample: the frame whose bytes 4–6 hold `0x000270`
decodes to voltage `62.4` volts (`0x270 = 624`, scale ÷10), not `99.2` as the
claim states. -/
theorem voltage_example_decodes_62_4 :
    (parse_packet voltage_example_frame).map Measurement.spannung_V = some (62.4 : ℚ) ∧
    (62.4 : ℚ) ≠ (99.2 : ℚ) := by
  constructor
  · have h : (parse_packet voltage_example_frame).map Measurement.spannung_V =
        some ((beSlice voltage_example_frame 4 3 : ℚ) / 10) := rfl
    have hb : beSlice voltage_example_frame 4 3 = 624 := by decide
    rw [h, hb]
    norm_num
  · norm_num

/-- Claim C3, amended: for every valid synthetic 36-byte frame with magic and
any type byte, `parse_packet` returns field values matching the documented
offsets and scales exactly; the frame whose bytes 4–6 hold `0x000270` decodes
to voltage `62.4` (not `99.2`), and the frame whose bytes 7–9 hold `0x0003E8`
decodes to current `1.000`. -/
theorem decode_offsets_and_scales :
    (∀ data : List Byte, 36 ≤ data.length → data.take 2 = [0xff, 0x55] →
      ∃ m, parse_packet data = some m ∧
        m.spannung_V = (beSlice data 4 3 : ℚ) / 10 ∧
        m.strom_A = (beSlice data 7 3 : ℚ) / 1000 ∧
        m.kapazitaet_Ah = (beSlice data 10 3 : ℚ) / 100 ∧
        m.energie_Wh = (beSlice data 13 4 : ℚ) ∧
        m.temperatur_C = beSlice data 24 2 ∧
        m.laufzeit_h = beSlice data 26 2) ∧
    (parse_packet voltage_example_frame).map Measurement.spannung_V = some (62.4 : ℚ) ∧
    (parse_packet voltage_example_frame).map Measurement.strom_A = some (1 : ℚ) := by
  refine ⟨?_, ?_, ?_⟩
  · intro data h36 hm
    have hp : parse_packet data = some
        { spannung_V := (beSlice data 4 3 : ℚ) / 10
          strom_A := (beSlice data 7 3 : ℚ) / 1000
          kapazitaet_Ah := (beSlice data 10 3 : ℚ) / 100
          energie_Wh := (beSlice data 13 4 : ℚ) * 1.0
          temperatur_C := beSlice data 24 2
          laufzeit_h := beSlice data 26 2
          laufzeit_min := data.getD 28 0
          laufzeit_sec := data.getD 29 0 } := by
      unfold parse_packet
      rw [if_neg]
      push_neg
      exact ⟨by omega, hm⟩
    exact ⟨_, hp, rfl, rfl, rfl, by norm_num, rfl, rfl⟩
  · have h : (parse_packet voltage_example_frame).map Measurement.spannung_V =
        some ((beSlice voltage_example_frame 4 3 : ℚ) / 10) := rfl
    have hb : beSlice voltage_example_frame 4 3 = 624 := by decide
    rw [h, hb]
    norm_num
  · have h : (parse_packet voltage_example_frame).map Measurement.strom_A =
        some ((beSlice voltage_example_frame 7 3 : ℚ) / 1000) := rfl
    have hb : beSlice voltage_example_frame 7 3 = 1000 := by decide
    rw [h, hb]
    norm_num

/-- Witness for `decode_offsets_and_scales` at the all-zero valid status
frame. -/
theorem decode_offsets_and_scales_witness :
    36 ≤ valid_status_frame.length ∧ valid_status_frame.take 2 = [0xff, 0x55] ∧
    (∃ m, parse_packet valid_status_frame = some m ∧
      m.spannung_V = (beSlice valid_status_frame 4 3 : ℚ) / 10 ∧
      m.strom_A = (beSlice valid_status_frame 7 3 : ℚ) / 1000 ∧
      m.kapazitaet_Ah = (beSlice valid_status_frame 10 3 : ℚ) / 100 ∧
      m.energie_Wh = (beSlice valid_status_frame 13 4 : ℚ) ∧
      m.temperatur_C = beSlice valid_status_frame 24 2 ∧
      m.laufzeit_h = beSlice valid_status_frame 26 2) :=
  ⟨by decide, by decide,
   decode_offsets_and_scales.1 valid_status_frame (by decide) (by decide)⟩

/-- Claim C6, counterexample: when every candidate scores 0 all four indices
tie at the maximum score, yet `learn_adu` selects no index at all (it reports
unresolved), rather than selecting the lower-valued index 0. -/
theorem zero_score_tie_gives_unresolved :
    (∀ j : Fin 4, probe_score (all_zero_obs j) ≤ probe_score (all_zero_obs 0)) ∧
    probe_score (all_zero_obs 1) = probe_score (all_zero_obs 0) ∧
    learn_adu all_zero_obs = none := by decide

theorem spec_sel_0 (obs : Fin 4 → ProbeResult)
    (hm : max_probe_score obs = probe_score (obs 0)) :
    spec_selected_index obs = if probe_score (obs 0) ≤ 0 then none else some 0 := by
  unfold spec_selected_index
  rw [hm]
  by_cases hz : probe_score (obs 0) ≤ 0
  · rw [if_pos hz, if_pos hz]
  · rw [if_neg hz, if_neg hz, if_pos rfl]

theorem spec_sel_1 (obs : Fin 4 → ProbeResult)
    (hm : max_probe_score obs = probe_score (obs 1))
    (h01 : probe_score (obs 0) ≠ probe_score (obs 1)) :
    spec_selected_index obs = if probe_score (obs 1) ≤ 0 then none else some 1 := by
  unfold spec_selected_index
  rw [hm]
  by_cases hz : probe_score (obs 1) ≤ 0
  · rw [if_pos hz, if_pos hz]
  · rw [if_neg hz, if_neg hz, if_neg h01, if_pos rfl]

theorem spec_sel_2 (obs : Fin 4 → ProbeResult)
    (hm : max_probe_score obs = probe_score (obs 2))
    (h02 : probe_score (obs 0) ≠ probe_score (obs 2))
    (h12 : probe_score (obs 1) ≠ probe_score (obs 2)) :
    spec_selected_index obs = if probe_score (obs 2) ≤ 0 then none else some 2 := by
  unfold spec_selected_index
  rw [hm]
  by_cases hz : probe_score (obs 2) ≤ 0
  · rw [if_pos hz, if_pos hz]
  · rw [if_neg hz, if_neg hz, if_neg h02, if_neg h12, if_pos rfl]

theorem spec_sel_3 (obs : Fin 4 → ProbeResult)
    (hm : max_probe_score obs = probe_score (obs 3))
    (h03 : probe_score (obs 0) ≠ probe_score (obs 3))
    (h13 : probe_score (obs 1) ≠ probe_score (obs 3))
    (h23 : probe_score (obs 2) ≠ probe_score (obs 3)) :
    spec_selected_index obs = if probe_score (obs 3) ≤ 0 then none else some 3 := by
  unfold spec_selected_index
  rw [hm]
  by_cases hz : probe_score (obs 3) ≤ 0
  · rw [if_pos hz, if_pos hz]
  · rw [if_neg hz, if_neg hz, if_neg h03, if_neg h13, if_neg h23]

/-- Claim C6, amended: `learn_adu` probes candidates in ascending order
0,1,2,3, replacing its best only on a strictly greater score; consequently it
returns exactly the spec's first-seen-wins selection: the lowest-valued index
among those achieving the maximum score when that maximum is positive, and no
index at all (unresolved) when the maximum score is ≤ 0 — even when several
indices tie at that non-positive maximum. -/
theorem learn_adu_matches_spec_selection (obs : Fin 4 → ProbeResult) :
    learn_adu obs = spec_selected_index obs := by
  have h0 := probe_score_nonneg (obs 0)
  have h1 := probe_score_nonneg (obs 1)
  have h2 := probe_score_nonneg (obs 2)
  have h3 := probe_score_nonneg (obs 3)
  unfold learn_adu
  simp only [List.foldl]
  have e0 : adu_step obs (none, -1) 0 = (some 0, probe_score (obs 0)) :=
    if_pos (show probe_score (obs 0) > -1 by omega)
  rw [e0]
  by_cases c1 : probe_score (obs 1) > probe_score (obs 0)
  · have e1 : adu_step obs (some 0, probe_score (obs 0)) 1 =
        (some 1, probe_score (obs 1)) := if_pos c1
    rw [e1]
    by_cases c2 : probe_score (obs 2) > probe_score (obs 1)
    · have e2 : adu_step obs (some 1, probe_score (obs 1)) 2 =
          (some 2, probe_score (obs 2)) := if_pos c2
      rw [e2]
      by_cases c3 : probe_score (obs 3) > probe_score (obs 2)
      · have e3 : adu_step obs (some 2, probe_score (obs 2)) 3 =
            (some 3, probe_score (obs 3)) := if_pos c3
        rw [e3, spec_sel_3 obs (by simp only [max_probe_score]; omega) (by omega)
          (by omega) (by omega)]
      · have e3 : adu_step obs (some 2, probe_score (obs 2)) 3 =
            (some 2, probe_score (obs 2)) := if_neg c3
        rw [e3, spec_sel_2 obs (by simp only [max_probe_score]; omega) (by omega)
          (by omega)]
    · have e2 : adu_step obs (some 1, probe_score (obs 1)) 2 =
          (some 1, probe_score (obs 1)) := if_neg c2
      rw [e2]
      by_cases c3 : probe_score (obs 3) > probe_score (obs 1)
      · have e3 : adu_step obs (some 1, probe_score (obs 1)) 3 =
            (some 3, probe_score (obs 3)) := if_pos c3
        rw [e3, spec_sel_3 obs (by simp only [max_probe_score]; omega) (by omega)
          (by omega) (by omega)]
      · have e3 : adu_step obs (some 1, probe_score (obs 1)) 3 =
            (some 1, probe_score (obs 1)) := if_neg c3
        rw [e3, spec_sel_1 obs (by simp only [max_probe_score]; omega) (by omega)]
  · have e1 : adu_step obs (some 0, probe_score (obs 0)) 1 =
        (some 0, probe_score (obs 0)) := if_neg c1
    rw [e1]
    by_cases c2 : probe_score (obs 2) > probe_score (obs 0)
    · have e2 : adu_step obs (some 0, probe_score (obs 0)) 2 =
          (some 2, probe_score (obs 2)) := if_pos c2
      rw [e2]
      by_cases c3 : probe_score (obs 3) > probe_score (obs 2)
      · have e3 : adu_step obs (some 2, probe_score (obs 2)) 3 =
            (some 3, probe_score (obs 3)) := if_pos c3
        rw [e3, spec_sel_3 obs (by simp only [max_probe_score]; omega) (by omega)
          (by omega) (by omega)]
      · have e3 : adu_step obs (some 2, probe_score (obs 2)) 3 =
            (some 2, probe_score (obs 2)) := if_neg c3
        rw [e3, spec_sel_2 obs (by simp only [max_probe_score]; omega) (by omega)
          (by omega)]
    · have e2 : adu_step obs (some 0, probe_score (obs 0)) 2 =
          (some 0, probe_score (obs 0)) := if_neg c2
      rw [e2]
      by_cases c3 : probe_score (obs 3) > probe_score (obs 0)
      · have e3 : adu_step obs (some 0, probe_score (obs 0)) 3 =
            (some 3, probe_score (obs 3)) := if_pos c3
        rw [e3, spec_sel_3 obs (by simp only [max_probe_score]; omega) (by omega)
          (by omega) (by omega)]
      · have e3 : adu_step obs (some 0, probe_score (obs 0)) 3 =
            (some 0, probe_score (obs 0)) := if_neg c3
        rw [e3, spec_sel_0 obs (by simp only [max_probe_score]; omega)]

/-- Claim C8: the scan loop of `handle_notify` terminates for every starting
buffer: while at least 36 bytes are buffered, an iteration either discards
exactly one leading byte (when the buffer does not start with the magic) or
consumes exactly 36 bytes (one frame), and on loop exit the retained buffer
always holds fewer than 36 bytes, so the buffer cannot grow without bound
across calls. -/
theorem scan_loop_resync_and_bounded :
    (∀ b : List Byte, 36 ≤ b.length → b.take 2 ≠ [0xff, 0x55] →
      scanBuffer b = scanBuffer b.tail) ∧
    (∀ b : List Byte, 36 ≤ b.length → b.take 2 = [0xff, 0x55] →
      (scanBuffer b).2 = (scanBuffer (b.drop 36)).2 ∧
      ∃ pre, (scanBuffer b).1 = pre ++ (scanBuffer (b.drop 36)).1) ∧
    (∀ b : List Byte, (scanBuffer b).2.length < 36) := by
  refine ⟨scanBuffer_drop_one, ?_, ?_⟩
  · intro b h36 hm
    rw [scanBuffer_frame b h36 hm]
    by_cases ht : (b.take 36).getD 2 0 ≠ 0x01
    · rw [if_pos ht]
      exact ⟨rfl, [], rfl⟩
    · rw [if_neg ht]
      cases hp : parse_packet (b.take 36) with
      | none => exact ⟨rfl, [], rfl⟩
      | some m => exact ⟨rfl, [m], rfl⟩
  · have aux : ∀ n : ℕ, ∀ b : List Byte, b.length ≤ n →
        (scanBuffer b).2.length < 36 := by
      intro n
      induction n with
      | zero =>
        intro b hb
        rw [scanBuffer_short b (by omega)]
        exact (by omega : b.length < 36)
      | succ n ih =>
        intro b hb
        by_cases h36 : 36 ≤ b.length
        · by_cases hm : b.take 2 = [0xff, 0x55]
          · rw [scanBuffer_frame b h36 hm]
            have hrec := ih (b.drop 36) (by simp only [List.length_drop]; omega)
            by_cases ht : (b.take 36).getD 2 0 ≠ 0x01
            · rw [if_pos ht]
              exact hrec
            · rw [if_neg ht]
              cases hp : parse_packet (b.take 36) with
              | none => exact hrec
              | some m => exact hrec
          · rw [scanBuffer_drop_one b h36 hm]
            exact ih b.tail (by simp only [List.length_tail]; omega)
        · rw [scanBuffer_short b (by omega)]
          exact (by omega : b.length < 36)
    exact fun b => aux b.length b (le_refl _)

/-- Witness for `scan_loop_resync_and_bounded` at a 37-byte garbage buffer
(resynchronization step and bound) and at a valid frame followed by one
extra byte (frame-consuming step). -/
theorem scan_loop_resync_and_bounded_witness :
    (36 ≤ garbage_buffer.length ∧ garbage_buffer.take 2 ≠ [0xff, 0x55] ∧
      scanBuffer garbage_buffer = scanBuffer garbage_buffer.tail) ∧
    (36 ≤ framed_buffer.length ∧ framed_buffer.take 2 = [0xff, 0x55] ∧
      ((scanBuffer framed_buffer).2 = (scanBuffer (framed_buffer.drop 36)).2 ∧
        ∃ pre, (scanBuffer framed_buffer).1 =
          pre ++ (scanBuffer (framed_buffer.drop 36)).1)) ∧
    (scanBuffer garbage_buffer).2.length < 36 :=
  ⟨⟨by decide, by decide,
    scan_loop_resync_and_bounded.1 garbage_buffer (by decide) (by decide)⟩,
   ⟨by decide, by decide,
    scan_loop_resync_and_bounded.2.1 framed_buffer (by decide) (by decide)⟩,
   scan_loop_resync_and_bounded.2.2 garbage_buffer⟩

theorem scan_append (b extra : List Byte) :
    scanBuffer (b ++ extra) =
      ((scanBuffer b).1 ++ (scanBuffer ((scanBuffer b).2 ++ extra)).1,
       (scanBuffer ((scanBuffer b).2 ++ extra)).2) := by
  have aux : ∀ n : ℕ, ∀ b extra : List Byte, b.length ≤ n →
      scanBuffer (b ++ extra) =
        ((scanBuffer b).1 ++ (scanBuffer ((scanBuffer b).2 ++ extra)).1,
         (scanBuffer ((scanBuffer b).2 ++ extra)).2) := by
    intro n
    induction n with
    | zero =>
      intro b extra hb
      rw [scanBuffer_short b (by omega)]
      rfl
    | succ n ih =>
      intro b extra hb
      by_cases h36 : 36 ≤ b.length
      · by_cases hm : b.take 2 = [0xff, 0x55]
        · have h36' : 36 ≤ (b ++ extra).length := by
            simp only [List.length_append]; omega
          have hmApp : (b ++ extra).take 2 = [0xff, 0x55] := by
            rw [List.take_append_of_le_length (by omega)]; exact hm
          have hframe : (b ++ extra).take 36 = b.take 36 :=
            List.take_append_of_le_length (by omega)
          have hdrop : (b ++ extra).drop 36 = b.drop 36 ++ extra :=
            List.drop_append_of_le_length (by omega)
          rw [scanBuffer_frame (b ++ extra) h36' hmApp, hframe, hdrop,
            scanBuffer_frame b h36 hm,
            ih (b.drop 36) extra (by simp only [List.length_drop]; omega)]
          by_cases ht : (b.take 36).getD 2 0 ≠ 0x01
          · rw [if_pos ht, if_pos ht]
          · rw [if_neg ht, if_neg ht]
            cases hp : parse_packet (b.take 36) with
            | none => rfl
            | some m => rfl
        · obtain ⟨hd, tl, rfl⟩ : ∃ hd tl, b = hd :: tl := by
            cases b with
            | nil => simp at h36
            | cons hd tl => exact ⟨hd, tl, rfl⟩
          have h36' : 36 ≤ ((hd :: tl) ++ extra).length := by
            simp only [List.length_append]; omega
          have hmApp : ((hd :: tl) ++ extra).take 2 ≠ [0xff, 0x55] := by
            rw [List.take_append_of_le_length (by omega)]; exact hm
          rw [scanBuffer_drop_one _ h36' hmApp, scanBuffer_drop_one _ h36 hm]
          exact ih tl extra (by simp only [List.length_cons] at hb; omega)
      · rw [scanBuffer_short b (by omega)]
        rfl
  exact aux b.length b extra (le_refl _)

theorem feed_accepted : ∀ (cs : List (List Byte)) (s : NotifyState),
    cs ≠ [] →
    (∀ c ∈ cs, 2 ≤ c.length ∧ c.take 2 = [0xff, 0x55] ∧
      ¬(c.length = 8 ∧ c.getD 2 0 = 0x02)) →
    feedChunks s cs =
      (⟨(scanBuffer (s.buffer ++ cs.flatten)).2, s.misc⟩,
       (scanBuffer (s.buffer ++ cs.flatten)).1) := by
  intro cs
  induction cs with
  | nil => intro s hne _; exact absurd rfl hne
  | cons c cs ih =>
    intro s _ hall
    have hc := hall c (List.mem_cons_self c cs)
    have hnotify : handle_notify s c =
        (⟨(scanBuffer (s.buffer ++ c)).2, s.misc⟩, (scanBuffer (s.buffer ++ c)).1) := by
      have hne2 : ¬(c = []) := by
        intro h
        rw [h] at hc
        simp at hc
      have h8 : ¬(c.length = 8 ∧ c.take 2 = [0xff, 0x55] ∧ c.getD 2 0 = 0x02) := by
        intro h
        exact hc.2.2 ⟨h.1, h.2.2⟩
      unfold handle_notify
      rw [if_neg hne2, if_neg h8, if_pos ⟨hc.1, hc.2.1⟩]
    rcases cs with _ | ⟨c2, cs2⟩
    · have step : feedChunks s [c] =
          ((handle_notify s c).1, (handle_notify s c).2 ++ []) := rfl
      rw [step, hnotify]
      simp
    · have step : feedChunks s (c :: c2 :: cs2) =
          ((feedChunks (handle_notify s c).1 (c2 :: cs2)).1,
           (handle_notify s c).2 ++ (feedChunks (handle_notify s c).1 (c2 :: cs2)).2) := rfl
      rw [step, hnotify]
      have hrest := ih ⟨(scanBuffer (s.buffer ++ c)).2, s.misc⟩ (by simp)
        (fun d hd => hall d (List.mem_cons_of_mem c hd))
      rw [hrest]
      have hassoc : s.buffer ++ (c :: c2 :: cs2).flatten =
          (s.buffer ++ c) ++ (c2 :: cs2).flatten := by
        rw [List.flatten_cons, List.append_assoc]
      rw [hassoc, scan_append (s.buffer ++ c) ((c2 :: cs2).flatten)]

/-- Claim C1, counterexample: a single valid 36-byte status frame fed as one
chunk emits one decoded frame, but the same bytes fed one chunk per byte emit
nothing — `handle_notify` discards every chunk that is shorter than 2 bytes or
does not itself start with the magic, so the emitted frames depend on how the
input is chunked. -/
theorem chunking_changes_emitted_frames :
    (feedChunks ⟨[], 0⟩ [valid_status_frame]).2.length = 1 ∧
    (feedChunks ⟨[], 0⟩ bytewise_chunks).2.length = 0 := by decide

/-- Claim C1, amended: chunk-boundary invariance holds only for the chunks
`handle_notify` actually appends to its buffer: if every chunk has length ≥ 2,
begins with the magic `FF 55`, and is not an 8-byte type-0x02 reply, then
feeding the chunks in order emits the same sequence of decoded frames as
feeding their concatenation as one chunk.  Chunks failing those tests are
discarded without entering the buffer, so in general (for example byte-by-byte
delivery) chunking changes the emitted frames. -/
theorem accepted_chunking_invariance (cs : List (List Byte))
    (hcs : ∀ c ∈ cs, 2 ≤ c.length ∧ c.take 2 = [0xff, 0x55] ∧
      ¬(c.length = 8 ∧ c.getD 2 0 = 0x02)) :
    (feedChunks ⟨[], 0⟩ cs).2 = (feedChunks ⟨[], 0⟩ [cs.flatten]).2 := by
  rcases cs with _ | ⟨c, cs'⟩
  · rfl
  · have hc := hcs c (List.mem_cons_self c cs')
    have hflat : 2 ≤ (c :: cs').flatten.length := by
      rw [List.flatten_cons, List.length_append]
      omega
    have hmagic : (c :: cs').flatten.take 2 = [0xff, 0x55] := by
      rw [List.flatten_cons, List.take_append_of_le_length hc.1]
      exact hc.2.1
    rw [feed_accepted (c :: cs') ⟨[], 0⟩ (by simp) hcs]
    by_cases h8 : (c :: cs').flatten.length = 8 ∧ (c :: cs').flatten.getD 2 0 = 0x02
    · -- the concatenation happens to look like an 8-byte reply and is
      -- suppressed by the single-chunk feed; but then fewer than 36 bytes
      -- ever entered the buffer, so the chunked feed also emitted nothing
      have hsingle : feedChunks ⟨[], 0⟩ [(c :: cs').flatten] = (⟨[], 0⟩, []) := by
        have step : feedChunks ⟨[], 0⟩ [(c :: cs').flatten] =
            ((handle_notify ⟨[], 0⟩ (c :: cs').flatten).1,
             (handle_notify ⟨[], 0⟩ (c :: cs').flatten).2 ++ []) := rfl
        rw [step]
        have hno : handle_notify ⟨[], 0⟩ (c :: cs').flatten = (⟨[], 0⟩, []) := by
          have hne : ¬((c :: cs').flatten = []) := by
            intro h
            rw [h] at hflat
            simp at hflat
          unfold handle_notify
          rw [if_neg hne, if_pos ⟨h8.1, hmagic, h8.2⟩]
        rw [hno]
        rfl
      rw [hsingle]
      rw [scanBuffer_short _ (by simp only [List.nil_append]; omega)]
    · have hno8 : ¬((c :: cs').flatten.length = 8 ∧
          (c :: cs').flatten.take 2 = [0xff, 0x55] ∧
          (c :: cs').flatten.getD 2 0 = 0x02) := by
        intro h
        exact h8 ⟨h.1, h.2.2⟩
      have hne : ¬((c :: cs').flatten = []) := by
        intro h
        rw [h] at hflat
        simp at hflat
      have step : feedChunks ⟨[], 0⟩ [(c :: cs').flatten] =
          ((handle_notify ⟨[], 0⟩ (c :: cs').flatten).1,
           (handle_notify ⟨[], 0⟩ (c :: cs').flatten).2 ++ []) := rfl
      rw [step]
      have hyes : handle_notify ⟨[], 0⟩ (c :: cs').flatten =
          (⟨(scanBuffer ([] ++ (c :: cs').flatten)).2, 0⟩,
           (scanBuffer ([] ++ (c :: cs').flatten)).1) := by
        unfold handle_notify
        rw [if_neg hne, if_neg hno8, if_pos ⟨hflat, hmagic⟩]
      rw [hyes]
      simp

/-- Witness for `accepted_chunking_invariance` at a two-chunk split of two
valid status frames. -/
theorem accepted_chunking_invariance_witness :
    (∀ c ∈ [valid_status_frame, valid_status_frame], 2 ≤ c.length ∧
      c.take 2 = [0xff, 0x55] ∧ ¬(c.length = 8 ∧ c.getD 2 0 = 0x02)) ∧
    (feedChunks ⟨[], 0⟩ [valid_status_frame, valid_status_frame]).2 =
      (feedChunks ⟨[], 0⟩ [[valid_status_frame, valid_status_frame].flatten]).2 :=
  ⟨by decide, accepted_chunking_invariance [valid_status_frame, valid_status_frame]
    (by decide)⟩

/-- Claim C4, counterexample: with a telemetry script that supplies one initial
fresh frame and then times out, the coarse wait times out and `mppt_sweep`
prints the warning — yet the very next actions are the FineDither banner and a
fine-phase button press, so the controller proceeds to the FineDither phase
instead of stopping in a terminal Aborted state. -/
theorem coarse_timeout_still_enters_fine :
    ∃ pre post, (mppt_sweep true coarse_timeout_script).1 =
      pre ++ MpptAct.warnNoFrameCoarse :: MpptAct.enterFine :: MpptAct.sendPlus :: post :=
  ⟨[.sendPlus, .sendPlus, .sendPlus], [.sendMinus, .report 10 1 (10 * 1)], rfl⟩

/-- Claim C4, amended: when the coarse-phase wait for a fresh frame times out,
`mppt_sweep` warns and abandons the coarse loop, but it does not transition to
a terminal Aborted state: every run that has an initial measurement continues
into the FineDither phase, regardless of the telemetry script — in particular
also after a coarse timeout. -/
theorem coarse_timeout_proceeds_to_fine (env : List WaitResult) (u i : ℚ) :
    MpptAct.enterFine ∈ (mppt_sweep true ⟨env, some (u, i)⟩).1 := by
  obtain ⟨u', i', h⟩ : ∃ u' i',
      (popWait ⟨env, some (u, i)⟩).2.last = some (u', i') := by
    cases env with
    | nil => exact ⟨u, i, rfl⟩
    | cons r rest =>
      cases r with
      | timeout => exact ⟨u, i, rfl⟩
      | fresh a b => exact ⟨a, b, rfl⟩
  have hcp : current_power (popWait ⟨env, some (u, i)⟩).2 = some (u' * i') := by
    unfold current_power
    rw [h]
  simp only [mppt_sweep, hcp]
  simp

theorem chain_glue (x y : ℚ) (l1 l2 : List ℚ)
    (h1 : List.Chain' (· ≤ ·) (x :: l1))
    (hl1 : (x :: l1).getLast? = some y)
    (h2 : List.Chain' (· ≤ ·) (y :: l2)) :
    List.Chain' (· ≤ ·) (x :: l1 ++ l2) ∧
    (x :: l1 ++ l2).getLast? = (y :: l2).getLast? := by
  constructor
  · have e1 : x :: l1 ++ l2 = (x :: l1) ++ l2 := rfl
    rw [e1, List.chain'_append]
    refine ⟨h1, (List.chain'_cons'.mp h2).2, ?_⟩
    intro a ha b hb
    have hay : a = y := by
      rw [hl1] at ha
      exact (Option.some_inj.mp (Option.mem_def.mp ha)).symm
    rw [hay]
    exact (List.chain'_cons'.mp h2).1 b hb
  · have e1 : x :: l1 ++ l2 = (x :: l1) ++ l2 := rfl
    have e2 : y :: l2 = [y] ++ l2 := rfl
    rw [e1, List.getLast?_append, e2, List.getLast?_append, hl1]
    rfl

theorem coarse_eps_pos : (0 : ℚ) < COARSE_EPS := by norm_num [COARSE_EPS]

theorem fine_tol_pos : (0 : ℚ) < MPPT_FINE_TOL_W := by norm_num [MPPT_FINE_TOL_W]

theorem coarseLoop_mono (fuel maxSteps consecDowns : ℕ) (c : SimCtx) (s : MpptState) :
    List.Chain' (· ≤ ·)
      (s.bestP :: (coarseLoop fuel maxSteps consecDowns c s).2.2.2) ∧
    (s.bestP :: (coarseLoop fuel maxSteps consecDowns c s).2.2.2).getLast? =
      some (coarseLoop fuel maxSteps consecDowns c s).2.1.bestP := by
  induction fuel generalizing c s with
  | zero => exact ⟨List.chain'_singleton _, rfl⟩
  | succ f ih =>
    simp only [coarseLoop]
    split
    · split
      · exact ⟨List.chain'_singleton _, rfl⟩
      · split
        · have hrec := ih (popWait c).2
            { s with totalSteps :=
                s.totalSteps + min BURST_PER_FRAME (maxSteps - s.totalSteps) }
          exact ⟨hrec.1, hrec.2⟩
        · rename_i p hp
          split
          · rename_i hgt
            have hle : s.bestP ≤ p := by
              have h' : s.bestP + COARSE_EPS < p := hgt
              have h0 := coarse_eps_pos
              linarith
            have hrec := ih (popWait c).2
              { s with
                bestP := p,
                bestU := ((popWait c).2.last.map Prod.fst).getD 0,
                bestI := ((popWait c).2.last.map Prod.snd).getD 0,
                bestPos := ((s.totalSteps +
                  min BURST_PER_FRAME (maxSteps - s.totalSteps) : ℕ) : ℤ),
                downs := 0,
                totalSteps := s.totalSteps + min BURST_PER_FRAME (maxSteps - s.totalSteps) }
            refine ⟨List.chain'_cons.mpr ⟨hle, hrec.1⟩, ?_⟩
            rw [List.getLast?_cons_cons]
            exact hrec.2
          · split
            · exact ⟨List.chain'_cons.mpr ⟨le_refl _, List.chain'_singleton _⟩, rfl⟩
            · have hrec := ih (popWait c).2
                { s with
                  downs := s.downs + 1,
                  totalSteps := s.totalSteps + min BURST_PER_FRAME (maxSteps - s.totalSteps) }
              refine ⟨List.chain'_cons.mpr ⟨le_refl _, hrec.1⟩, ?_⟩
              rw [List.getLast?_cons_cons]
              exact hrec.2
    · exact ⟨List.chain'_singleton _, rfl⟩

theorem fineAttempt_mono (d : ℤ) (c : SimCtx) (s : MpptState) :
    List.Chain' (· ≤ ·) (s.bestP :: (fineAttempt d c s).snaps) ∧
    (s.bestP :: (fineAttempt d c s).snaps).getLast? =
      some (fineAttempt d c s).st.bestP := by
  simp only [fineAttempt]
  split
  · exact ⟨List.chain'_singleton _, rfl⟩
  · split
    · rename_i p hp
      split
      · rename_i hgt
        have hle : s.bestP ≤ p := by
          have h' : s.bestP + MPPT_FINE_TOL_W < p := hgt
          have h0 := fine_tol_pos
          linarith
        exact ⟨List.chain'_cons.mpr ⟨hle, List.chain'_singleton _⟩, rfl⟩
      · exact ⟨List.chain'_cons.mpr ⟨le_refl _, List.chain'_singleton _⟩, rfl⟩
    · exact ⟨List.chain'_singleton _, rfl⟩

theorem fineLoop_mono (cycles : ℕ) (c : SimCtx) (s : MpptState) :
    List.Chain' (· ≤ ·) (s.bestP :: (fineLoop cycles c s).2.2.2) ∧
    (s.bestP :: (fineLoop cycles c s).2.2.2).getLast? =
      some (fineLoop cycles c s).2.1.bestP := by
  induction cycles generalizing c s with
  | zero => exact ⟨List.chain'_singleton _, rfl⟩
  | succ n ih =>
    have h1 := fineAttempt_mono 1 c s
    have h2 := fineAttempt_mono (-1) (fineAttempt 1 c s).ctx (fineAttempt 1 c s).st
    simp only [fineLoop]
    split
    · exact ⟨h1.1, h1.2⟩
    · split
      · have g := chain_glue s.bestP (fineAttempt 1 c s).st.bestP _ _ h1.1 h1.2 h2.1
        exact ⟨g.1, g.2.trans h2.2⟩
      · split
        · have hrec := ih
            (fineAttempt (-1) (fineAttempt 1 c s).ctx (fineAttempt 1 c s).st).ctx
            { (fineAttempt (-1) (fineAttempt 1 c s).ctx (fineAttempt 1 c s).st).st with
              noImprove := 0 }
          have g2 := chain_glue (fineAttempt 1 c s).st.bestP
            (fineAttempt (-1) (fineAttempt 1 c s).ctx (fineAttempt 1 c s).st).st.bestP
            _ _ h2.1 h2.2 hrec.1
          have g1 := chain_glue s.bestP (fineAttempt 1 c s).st.bestP _ _ h1.1 h1.2 g2.1
          exact ⟨g1.1, (g1.2.trans g2.2).trans hrec.2⟩
        · split
          · have g := chain_glue s.bestP (fineAttempt 1 c s).st.bestP _ _ h1.1 h1.2 h2.1
            exact ⟨g.1, g.2.trans h2.2⟩
          · have hrec := ih
              (fineAttempt (-1) (fineAttempt 1 c s).ctx (fineAttempt 1 c s).st).ctx
              { (fineAttempt (-1) (fineAttempt 1 c s).ctx (fineAttempt 1 c s).st).st with
                noImprove :=
                  (fineAttempt (-1) (fineAttempt 1 c s).ctx
                    (fineAttempt 1 c s).st).st.noImprove + 1 }
            have g2 := chain_glue (fineAttempt 1 c s).st.bestP
              (fineAttempt (-1) (fineAttempt 1 c s).ctx (fineAttempt 1 c s).st).st.bestP
              _ _ h2.1 h2.2 hrec.1
            have g1 := chain_glue s.bestP (fineAttempt 1 c s).st.bestP _ _ h1.1 h1.2 g2.1
            exact ⟨g1.1, (g1.2.trans g2.2).trans hrec.2⟩

/-- Claim C7: throughout one `mppt_sweep` run, the recorded best power is
monotonically non-decreasing: starting from the initial measurement, the
value of `best_p` after every coarse-phase evaluation (update only when
strictly above best plus the 1e-9 epsilon) and every fine-phase evaluation
(update only when strictly above best plus the 0.05 tolerance) forms a
non-decreasing chain — observing a worse point never decreases the recorded
best. -/
theorem mppt_best_power_monotone (aduKnown : Bool) (c0 : SimCtx) :
    List.Chain' (· ≤ ·) (mppt_sweep aduKnown c0).2.1 := by
  cases aduKnown with
  | false => exact List.chain'_nil
  | true =>
    simp only [mppt_sweep]
    cases hcp : current_power (popWait c0).2 with
    | none => simp [hcp]
    | some basePower =>
      simp only [hcp]
      have hc := coarseLoop_mono MPPT_MAX_STEPS MPPT_MAX_STEPS MPPT_CONSECUTIVE_DOWNS
        (popWait c0).2
        { bestP := basePower, bestU := ((popWait c0).2.last.map Prod.fst).getD 0,
          bestI := ((popWait c0).2.last.map Prod.snd).getD 0,
          bestPos := 0, downs := 0, totalSteps := 0, pos := 0, noImprove := 0 }
      have hf := fineLoop_mono MPPT_FINE_CYCLES
        (coarseLoop MPPT_MAX_STEPS MPPT_MAX_STEPS MPPT_CONSECUTIVE_DOWNS (popWait c0).2
          { bestP := basePower, bestU := ((popWait c0).2.last.map Prod.fst).getD 0,
            bestI := ((popWait c0).2.last.map Prod.snd).getD 0,
            bestPos := 0, downs := 0, totalSteps := 0, pos := 0, noImprove := 0 }).1
        { (coarseLoop MPPT_MAX_STEPS MPPT_MAX_STEPS MPPT_CONSECUTIVE_DOWNS (popWait c0).2
            { bestP := basePower, bestU := ((popWait c0).2.last.map Prod.fst).getD 0,
              bestI := ((popWait c0).2.last.map Prod.snd).getD 0,
              bestPos := 0, downs := 0, totalSteps := 0, pos := 0, noImprove := 0 }).2.1 with
          pos := (coarseLoop MPPT_MAX_STEPS MPPT_MAX_STEPS MPPT_CONSECUTIVE_DOWNS
            (popWait c0).2
            { bestP := basePower, bestU := ((popWait c0).2.last.map Prod.fst).getD 0,
              bestI := ((popWait c0).2.last.map Prod.snd).getD 0,
              bestPos := 0, downs := 0, totalSteps := 0, pos := 0,
              noImprove := 0 }).2.1.bestPos }
      exact (chain_glue basePower _ _ _ hc.1 hc.2 hf.1).1

end PVMeter
